import Mathlib

/-!
Verification of the persistence and query layer of the vacancies project
(src/vacancy.py, src/utils.py, src/db_manager.py, src/db_queries.py),
as a shallow embedding.

Conventions of the embedding:
* Python Optional values become Option; a value read from a dictionary with
  .get becomes an Option field.
* Python integers become Int, PostgreSQL numeric results become Rat.
* Python floor division (the // operator) becomes Int.fdiv.
* A caught exception becomes an Except.error that the catching wrapper maps
  to the fallback value, exactly as the try/except blocks in the source do.
-/

/-- Shared salary record shape: the "salary" sub-dictionary of a vacancy,
with keys "from", "to", "currency", "gross" (vacancy.py, db_manager.py).
A missing key is the none case. -/
structure SalaryInfo where
  fromB : Option Int
  toB : Option Int
  currency : Option String := none
  gross : Option Bool := none
deriving Repr, DecidableEq

/-- Embedding of Vacancy.__get_comparison_salary (src/vacancy.py lines 49-72),
factored through the pair of optional bounds.  The guard
"if not self.salary: return 0" (empty dictionary) and the final else both
return 0 and coincide with the both-none case, since an empty salary
dictionary yields none for both bounds. -/
def get_comparison_salary (salary_from salary_to : Option Int) : Int :=
  match salary_from, salary_to with
  | none, none => 0
  | some a, some b => (a + b).fdiv 2
  | some a, none => a
  | none, some b => b

/-- Embedding of Vacancy.get_salary_display (src/vacancy.py lines 74-94),
factored through the optional bounds and the optional currency key
(a missing currency key defaults to "RUR" in the source).  The guard
"if not self.salary" coincides with the both-none branch. -/
def get_salary_display (salary_from salary_to : Option Int)
    (currency : Option String) : String :=
  match salary_from, salary_to with
  | some a, some b => toString a ++ " - " ++ toString b ++ " " ++ currency.getD "RUR"
  | some a, none => "от " ++ toString a ++ " " ++ currency.getD "RUR"
  | none, some b => "до " ++ toString b ++ " " ++ currency.getD "RUR"
  | none, none => "Не указана"

/-- Python truthiness of an optional integer: None and 0 are falsy. -/
def truthyInt (o : Option Int) : Bool :=
  match o with
  | none => false
  | some n => n != 0

/-- Python string interpolation of a nullable value: None prints as "None". -/
def interpOptStr (o : Option String) : String :=
  match o with
  | none => "None"
  | some s => s

/-- Embedding of format_salary (src/utils.py lines 202-211).  The source
tests the bounds with plain truthiness, so a bound equal to 0 behaves like
an absent bound.  The currency is interpolated as-is (None prints as
"None"). -/
def format_salary (salary_from salary_to : Option Int)
    (salary_currency : Option String) : String :=
  if truthyInt salary_from || truthyInt salary_to then
    if truthyInt salary_from && truthyInt salary_to then
      toString (salary_from.getD 0) ++ " - " ++ toString (salary_to.getD 0)
        ++ " " ++ interpOptStr salary_currency
    else if truthyInt salary_from then
      "от " ++ toString (salary_from.getD 0) ++ " " ++ interpOptStr salary_currency
    else if truthyInt salary_to then
      "до " ++ toString (salary_to.getD 0) ++ " " ++ interpOptStr salary_currency
    else
      "не указана"
  else
    "не указана"

/-! ## Data model of the store (db_manager.py, DatabaseSchemaManager) -/

/-- Input record for an employer, as consumed by insert_employer
(db_manager.py lines 101-128); every field is read with .get and may be
absent.  The three JSONB payloads are stored opaquely as strings. -/
structure EmployerRecord where
  id : Option Int := none
  name : Option String := none
  description : Option String := none
  site_url : Option String := none
  alternate_url : Option String := none
  logo_urls : Option String := none
  area : Option String := none
  industries : Option String := none
deriving Repr, DecidableEq

/-- Nested employer reference of a vacancy record: vacancy_data.get("employer", {}). -/
structure EmployerRef where
  id : Option Int := none
deriving Repr, DecidableEq

/-- Nested named object (employment / experience sub-dictionaries). -/
structure NamedObj where
  name : Option String := none
deriving Repr, DecidableEq

/-- Input record for a vacancy, as consumed by insert_vacancy
(db_manager.py lines 130-184). -/
structure VacancyRecord where
  id : Option Int := none
  name : Option String := none
  salary : Option SalaryInfo := none
  employer : Option EmployerRef := none
  area : Option String := none
  published_at : Option String := none
  created_at : Option String := none
  requirement : Option String := none
  responsibility : Option String := none
  employment : Option NamedObj := none
  experience : Option NamedObj := none
  alternate_url : Option String := none
deriving Repr, DecidableEq

/-- Stored employer row (table employers, db_manager.py lines 42-54):
id SERIAL, employer_id INTEGER UNIQUE NOT NULL, name NOT NULL. -/
structure EmployerRow where
  id : Nat
  employer_id : Int
  name : String
  description : Option String
  site_url : Option String
  alternate_url : Option String
  logo_urls : Option String
  area : Option String
  industries : Option String
deriving Repr, DecidableEq

/-- Stored vacancy row (table vacancies, db_manager.py lines 61-80):
id SERIAL, vacancy_id INTEGER UNIQUE NOT NULL, name NOT NULL,
employer_id nullable with a foreign key into employers.employer_id. -/
structure VacancyRow where
  id : Nat
  vacancy_id : Int
  employer_id : Option Int
  name : String
  salary_from : Option Int
  salary_to : Option Int
  salary_currency : Option String
  salary_gross : Option Bool
  area : Option String
  published_at : Option String
  created_at : Option String
  requirement : Option String
  responsibility : Option String
  employment : Option String
  experience : Option String
  alternate_url : Option String
deriving Repr, DecidableEq

/-- State of the store: the two tables. -/
structure Database where
  employers : List EmployerRow
  vacancies : List VacancyRow
deriving Repr, DecidableEq

/-- Errors a single SQL statement can raise. -/
inductive DBError where
  | notNullViolation
  | foreignKeyViolation
  | connectionFailure
deriving Repr, DecidableEq

/-! ## Inserts and the batch loader (db_manager.py, DatabaseManager) -/

/-- Employer row formed from an input record by the INSERT of
insert_employer (db_manager.py lines 103-123). -/
def mkEmployerRow (db : Database) (e : EmployerRecord) (eid : Int)
    (nm : String) : EmployerRow :=
  { id := db.employers.length + 1
    employer_id := eid
    name := nm
    description := e.description
    site_url := e.site_url
    alternate_url := e.alternate_url
    logo_urls := e.logo_urls
    area := e.area
    industries := e.industries }

/-- Raw execution of the INSERT of insert_employer (db_manager.py lines
103-125): NOT NULL constraints raise, ON CONFLICT (employer_id) DO NOTHING
returns no row, a successful insert returns the fresh serial id. -/
def execInsertEmployer (db : Database) (e : EmployerRecord) :
    Except DBError (Option Nat × Database) :=
  match e.id, e.name with
  | none, _ => .error .notNullViolation
  | _, none => .error .notNullViolation
  | some eid, some nm =>
    if db.employers.any (fun r => r.employer_id == eid) then
      .ok (none, db)
    else
      .ok (some (db.employers.length + 1),
        { db with employers := db.employers ++ [mkEmployerRow db e eid nm] })

/-- Embedding of DatabaseManager.insert_employer (db_manager.py lines
101-128): the whole statement runs inside try/except, an exception is
caught and turned into the return value None with the store unchanged. -/
def insert_employer (db : Database) (e : EmployerRecord) : Option Nat × Database :=
  match execInsertEmployer db e with
  | .ok r => r
  | .error _ => (none, db)

/-- Raw execution of the INSERT of insert_vacancy (db_manager.py lines
132-181), including the defensive extraction of the nested salary,
employer, employment and experience objects.  NOT NULL is checked at row
formation, a conflicting vacancy_id skips the insert entirely (so the
foreign key is not evaluated), and a missing employer reference raises a
foreign-key violation. -/
def execInsertVacancy (db : Database) (v : VacancyRecord) :
    Except DBError (Option Nat × Database) :=
  match v.id, v.name with
  | none, _ => .error .notNullViolation
  | _, none => .error .notNullViolation
  | some vid, some nm =>
    if db.vacancies.any (fun r => r.vacancy_id == vid) then
      .ok (none, db)
    else
      let employer_id := v.employer.bind EmployerRef.id
      let row : VacancyRow :=
        { id := db.vacancies.length + 1
          vacancy_id := vid
          employer_id := employer_id
          name := nm
          salary_from := v.salary.bind SalaryInfo.fromB
          salary_to := v.salary.bind SalaryInfo.toB
          salary_currency := v.salary.bind SalaryInfo.currency
          salary_gross := v.salary.bind SalaryInfo.gross
          area := v.area
          published_at := v.published_at
          created_at := v.created_at
          requirement := v.requirement
          responsibility := v.responsibility
          employment := v.employment.bind NamedObj.name
          experience := v.experience.bind NamedObj.name
          alternate_url := v.alternate_url }
      match employer_id with
      | some eid =>
        if db.employers.any (fun r => r.employer_id == eid) then
          .ok (some (db.vacancies.length + 1),
               { db with vacancies := db.vacancies ++ [row] })
        else
          .error .foreignKeyViolation
      | none =>
        .ok (some (db.vacancies.length + 1),
             { db with vacancies := db.vacancies ++ [row] })

/-- Embedding of DatabaseManager.insert_vacancy (db_manager.py lines
130-184): exceptions are caught and turned into None, store unchanged. -/
def insert_vacancy (db : Database) (v : VacancyRecord) : Option Nat × Database :=
  match execInsertVacancy db v with
  | .ok r => r
  | .error _ => (none, db)

/-- Load statistics dictionary of load_data_from_json. -/
structure LoadStats where
  employers_loaded : Nat
  vacancies_loaded : Nat
  employers_total : Nat
  vacancies_total : Nat
deriving Repr, DecidableEq

/-- One iteration of the employer loop of load_data_from_json
(db_manager.py lines 202-208): the counter is incremented only when the
returned db_id is truthy (not None and not 0). -/
def loadEmployersStep (acc : Nat × Database) (e : EmployerRecord) : Nat × Database :=
  match insert_employer acc.2 e with
  | (some dbId, db) => if dbId != 0 then (acc.1 + 1, db) else (acc.1, db)
  | (none, db) => (acc.1, db)

/-- One iteration of the vacancy loop of load_data_from_json
(db_manager.py lines 211-215): the counter is incremented unconditionally,
whatever insert_vacancy returned. -/
def loadVacanciesStep (acc : Nat × Database) (v : VacancyRecord) : Nat × Database :=
  let r := insert_vacancy acc.2 v
  (acc.1 + 1, r.2)

/-- Embedding of DatabaseManager.load_data_from_json (db_manager.py lines
186-220): load all employers, then all vacancies, and return the stats
dictionary together with the final store. -/
def load_data_from_json (db : Database) (employers : List EmployerRecord)
    (vacancies : List VacancyRecord) : LoadStats × Database :=
  let afterEmployers := employers.foldl loadEmployersStep (0, db)
  let afterVacancies := vacancies.foldl loadVacanciesStep (0, afterEmployers.2)
  ({ employers_loaded := afterEmployers.1
     vacancies_loaded := afterVacancies.1
     employers_total := employers.length
     vacancies_total := vacancies.length },
   afterVacancies.2)

/-! ## Query engine (db_queries.py, DBManager)

Each operation receives the outcome of establishing and using the
connection: .ok db is a successful execution against store db, .error e is
any exception raised while executing the query.  The try/except block of
every method maps the error case to the fallback value of its return type,
exactly as the source does. -/

/-- The CASE expression shared by get_avg_salary, get_vacancies_with_higher_salary
and get_salary_statistics (db_queries.py lines 104-110, 144-150, 283-309):
(salary_from + salary_to) / 2.0 when both bounds are present (exact numeric
division, no flooring), the present bound when exactly one is present, and
SQL NULL otherwise. -/
def caseSalary (salary_from salary_to : Option Int) : Option ℚ :=
  match salary_from, salary_to with
  | some a, some b => some (((a : ℚ) + (b : ℚ)) / 2)
  | some a, none => some (a : ℚ)
  | none, some b => some (b : ℚ)
  | none, none => none

/-- The SQL aggregate of get_avg_salary (db_queries.py lines 101-114):
AVG of the CASE expression over the rows having at least one bound;
AVG over no rows is NULL. -/
def avgSalaryAggregate (db : Database) : Option ℚ :=
  let vals := db.vacancies.filterMap fun v =>
    if v.salary_from.isSome || v.salary_to.isSome then
      caseSalary v.salary_from v.salary_to
    else none
  if vals.length = 0 then none else some (vals.sum / (vals.length : ℚ))

/-- Embedding of DBManager.get_avg_salary (db_queries.py lines 99-127).
The source guards the fetched value with "if result and result[0]", a
truthiness test, so both a NULL average and an average equal to 0 fall
through to the return None branch. -/
def get_avg_salary (conn : Except DBError Database) : Option ℚ :=
  match conn with
  | .error _ => none
  | .ok db =>
    match avgSalaryAggregate db with
    | some avg => if avg = 0 then none else some avg
    | none => none

/-- INNER JOIN of vacancies with employers on employer_id, shared by the
row-returning queries (db_queries.py lines 79-80, 151-152, 191-192).
A vacancy with a NULL employer reference joins no employer row. -/
def joinRows (db : Database) : List (EmployerRow × VacancyRow) :=
  db.vacancies.flatMap fun v =>
    (db.employers.filter fun e => v.employer_id == some e.employer_id).map
      fun e => (e, v)

/-- Result row of get_companies_and_vacancies_count. -/
structure CompanyCountRow where
  company_name : String
  vacancies_count : Nat
deriving Repr, DecidableEq

/-- Embedding of DBManager.get_companies_and_vacancies_count (db_queries.py
lines 41-66): LEFT JOIN grouped per employer, count of joined vacancies,
ordered by descending count; any exception yields the empty list. -/
def get_companies_and_vacancies_count (conn : Except DBError Database) :
    List CompanyCountRow :=
  match conn with
  | .error _ => []
  | .ok db =>
    let rows := db.employers.map fun e =>
      { company_name := e.name
        vacancies_count :=
          (db.vacancies.filter fun v => v.employer_id == some e.employer_id).length
        : CompanyCountRow }
    List.insertionSort
      (fun r1 r2 : CompanyCountRow => r2.vacancies_count ≤ r1.vacancies_count) rows

/-- Result row of get_all_vacancies. -/
structure AllVacanciesRow where
  company_name : String
  vacancy_name : String
  salary_from : Option Int
  salary_to : Option Int
  salary_currency : Option String
  vacancy_url : Option String
deriving Repr, DecidableEq

/-- Ordering by company name, then vacancy name (ORDER BY e.name, v.name):
lexicographic comparison of the code points, the C collation of the store. -/
def byCompanyThenVacancy (c1 n1 c2 n2 : String) : Prop :=
  c1.data < c2.data ∨ (c1.data = c2.data ∧ n1.data ≤ n2.data)

instance (c1 n1 c2 n2 : String) : Decidable (byCompanyThenVacancy c1 n1 c2 n2) := by
  unfold byCompanyThenVacancy; infer_instance

/-- Embedding of DBManager.get_all_vacancies (db_queries.py lines 68-97). -/
def get_all_vacancies (conn : Except DBError Database) : List AllVacanciesRow :=
  match conn with
  | .error _ => []
  | .ok db =>
    let rows := (joinRows db).map fun p =>
      { company_name := p.1.name
        vacancy_name := p.2.name
        salary_from := p.2.salary_from
        salary_to := p.2.salary_to
        salary_currency := p.2.salary_currency
        vacancy_url := p.2.alternate_url
        : AllVacanciesRow }
    List.insertionSort
      (fun r1 r2 : AllVacanciesRow =>
        byCompanyThenVacancy r1.company_name r1.vacancy_name r2.company_name r2.vacancy_name)
      rows

/-- Result row of get_vacancies_with_higher_salary: the joined columns plus
the projected CASE expression as calculated_salary. -/
structure HigherSalaryRow where
  company_name : String
  vacancy_name : String
  salary_from : Option Int
  salary_to : Option Int
  salary_currency : Option String
  vacancy_url : Option String
  calculated_salary : Option ℚ
deriving Repr, DecidableEq

/-- The WHERE predicate of get_vacancies_with_higher_salary (db_queries.py
lines 153-160): three OR-ed conditions, each bound tested individually
against the average, plus the unfloored mean when both bounds exist. -/
def higherSalaryPred (avg : ℚ) (v : VacancyRow) : Bool :=
  (match v.salary_from with
   | some a => decide (avg < (a : ℚ))
   | none => false) ||
  (match v.salary_to with
   | some b => decide (avg < (b : ℚ))
   | none => false) ||
  (match v.salary_from, v.salary_to with
   | some a, some b => decide (avg < ((a : ℚ) + (b : ℚ)) / 2)
   | _, _ => false)

/-- Projection of a joined pair into a HigherSalaryRow (db_queries.py lines
137-150). -/
def projectHigherSalaryRow (p : EmployerRow × VacancyRow) : HigherSalaryRow :=
  { company_name := p.1.name
    vacancy_name := p.2.name
    salary_from := p.2.salary_from
    salary_to := p.2.salary_to
    salary_currency := p.2.salary_currency
    vacancy_url := p.2.alternate_url
    calculated_salary := caseSalary p.2.salary_from p.2.salary_to }

/-- Descending order on the projected calculated_salary (ORDER BY
calculated_salary DESC); every selected row carries a present value, so the
default used for none never takes part. -/
def byCalculatedSalaryDesc (r1 r2 : HigherSalaryRow) : Prop :=
  r2.calculated_salary.getD 0 ≤ r1.calculated_salary.getD 0

instance (r1 r2 : HigherSalaryRow) : Decidable (byCalculatedSalaryDesc r1 r2) := by
  unfold byCalculatedSalaryDesc; infer_instance

/-- Embedding of DBManager.get_vacancies_with_higher_salary (db_queries.py
lines 129-177): first compute the average; on None return the empty list
without running the query; otherwise select, project and sort; any
exception yields the empty list. -/
def get_vacancies_with_higher_salary (conn : Except DBError Database) :
    List HigherSalaryRow :=
  match get_avg_salary conn with
  | none => []
  | some avg =>
    match conn with
    | .error _ => []
    | .ok db =>
      let rows := ((joinRows db).filter fun p => higherSalaryPred avg p.2).map
        projectHigherSalaryRow
      List.insertionSort byCalculatedSalaryDesc rows

/-! ## SQL LIKE pattern matching (the ILIKE operator of db_queries.py) -/

/-- Character-wise lowering of a string, the case folding performed by the
ILIKE operator on both of its operands. -/
def lowerChars (s : String) : List Char :=
  s.data.map Char.toLower

/-- SQL LIKE matching of a pattern against a string, both already case
folded: the default escape character (a backslash) followed by any pattern
character matches that character literally, the percent sign matches any
sequence of characters (some suffix of the rest of the string matches the
rest of the pattern), the underscore matches exactly one character, every
other character matches itself.  A pattern ending in a lone escape
character is an error in PostgreSQL; it is modelled as matching nothing,
and cannot arise from the query, whose patterns always end in a percent
sign. -/
def likeMatch (p s : List Char) : Bool :=
  match p, s with
  | [], s => s.isEmpty
  | p :: ps, s =>
    if p = '\\' then
      match ps, s with
      | [], _ => false
      | c :: ps1, d :: s1 => (c = d) && likeMatch ps1 s1
      | _ :: _, [] => false
    else if p = '%' then
      s.tails.any fun t => likeMatch ps t
    else
      match s with
      | [] => false
      | d :: s1 => (p = '_' || p = d) && likeMatch ps s1

/-- Embedding of the SQL condition field ILIKE search_pattern with
search_pattern = percent ++ keyword ++ percent (db_queries.py lines
193-199): a NULL field never matches; otherwise both sides are case folded
and matched with the LIKE wildcards and escape characters live inside the
keyword (a backslash in the keyword escapes the next character, and a
trailing backslash escapes the appended closing percent). -/
def ilikeContains (field : Option String) (keyword : String) : Bool :=
  match field with
  | none => false
  | some s => likeMatch ('%' :: (lowerChars keyword ++ ['%'])) (lowerChars s)

/-- Result row of get_vacancies_with_keyword. -/
structure KeywordRow where
  company_name : String
  vacancy_name : String
  salary_from : Option Int
  salary_to : Option Int
  salary_currency : Option String
  vacancy_url : Option String
  requirement : Option String
  responsibility : Option String
deriving Repr, DecidableEq

/-- Projection of a joined pair into a KeywordRow (db_queries.py lines
182-190). -/
def projectKeywordRow (p : EmployerRow × VacancyRow) : KeywordRow :=
  { company_name := p.1.name
    vacancy_name := p.2.name
    salary_from := p.2.salary_from
    salary_to := p.2.salary_to
    salary_currency := p.2.salary_currency
    vacancy_url := p.2.alternate_url
    requirement := p.2.requirement
    responsibility := p.2.responsibility }

/-- Embedding of DBManager.get_vacancies_with_keyword (db_queries.py lines
179-214): ILIKE over name, requirement and responsibility, ordered by
company name then vacancy name; any exception yields the empty list. -/
def get_vacancies_with_keyword (conn : Except DBError Database)
    (keyword : String) : List KeywordRow :=
  match conn with
  | .error _ => []
  | .ok db =>
    let rows := ((joinRows db).filter fun p =>
      ilikeContains (some p.2.name) keyword ||
      ilikeContains p.2.requirement keyword ||
      ilikeContains p.2.responsibility keyword).map projectKeywordRow
    List.insertionSort
      (fun r1 r2 : KeywordRow =>
        byCompanyThenVacancy r1.company_name r1.vacancy_name r2.company_name r2.vacancy_name)
      rows

/-- Result row of get_vacancies_by_company. -/
structure CompanyVacancyRow where
  vacancy_name : String
  salary_from : Option Int
  salary_to : Option Int
  salary_currency : Option String
  vacancy_url : Option String
  employment : Option String
  experience : Option String
deriving Repr, DecidableEq

/-- Embedding of DBManager.get_vacancies_by_company (db_queries.py lines
216-245): vacancies of one employer, ordered by vacancy name. -/
def get_vacancies_by_company (conn : Except DBError Database)
    (company_id : Int) : List CompanyVacancyRow :=
  match conn with
  | .error _ => []
  | .ok db =>
    let rows := (db.vacancies.filter fun v => v.employer_id == some company_id).map
      fun v =>
        { vacancy_name := v.name
          salary_from := v.salary_from
          salary_to := v.salary_to
          salary_currency := v.salary_currency
          vacancy_url := v.alternate_url
          employment := v.employment
          experience := v.experience
          : CompanyVacancyRow }
    List.insertionSort
      (fun r1 r2 : CompanyVacancyRow => r1.vacancy_name.data ≤ r2.vacancy_name.data) rows

/-- Result row of get_top_companies_by_vacancies. -/
structure TopCompanyRow where
  company_name : String
  vacancies_count : Nat
  company_url : Option String
deriving Repr, DecidableEq

/-- Embedding of DBManager.get_top_companies_by_vacancies (db_queries.py
lines 247-274): the grouped counts ordered by descending count, limited to
the requested number of rows. -/
def get_top_companies_by_vacancies (conn : Except DBError Database)
    (limit : Nat) : List TopCompanyRow :=
  match conn with
  | .error _ => []
  | .ok db =>
    let rows := db.employers.map fun e =>
      { company_name := e.name
        vacancies_count :=
          (db.vacancies.filter fun v => v.employer_id == some e.employer_id).length
        company_url := e.alternate_url
        : TopCompanyRow }
    (List.insertionSort
      (fun r1 r2 : TopCompanyRow => r2.vacancies_count ≤ r1.vacancies_count)
      rows).take limit

/-- Result row of get_salary_statistics: the single aggregate row; the
whole mapping is Option-wrapped, none standing for the empty dictionary
returned on an exception. -/
structure SalaryStatisticsRow where
  total_vacancies : Nat
  vacancies_with_salary : Nat
  avg_salary : Option ℚ
  min_salary : Option ℚ
  max_salary : Option ℚ
deriving Repr, DecidableEq

/-- Embedding of DBManager.get_salary_statistics (db_queries.py lines
276-325): one aggregate row over all vacancies; AVG, MIN and MAX of the
CASE expression ignore its NULL results; any exception yields the empty
dictionary (none). -/
def get_salary_statistics (conn : Except DBError Database) :
    Option SalaryStatisticsRow :=
  match conn with
  | .error _ => none
  | .ok db =>
    let vals := db.vacancies.filterMap fun v => caseSalary v.salary_from v.salary_to
    some
      { total_vacancies := db.vacancies.length
        vacancies_with_salary :=
          (db.vacancies.filter fun v =>
            v.salary_from.isSome || v.salary_to.isSome).length
        avg_salary :=
          if vals.length = 0 then none else some (vals.sum / (vals.length : ℚ))
        min_salary :=
          match vals with
          | [] => none
          | h :: t => some (t.foldl min h)
        max_salary :=
          match vals with
          | [] => none
          | h :: t => some (t.foldl max h) }


/-! ## Concrete stores and records used by the scenario evaluations -/

/-- Employer record of the duplicate-load scenario. -/
def employerRecordA : EmployerRecord := { id := some 1, name := some "A" }

/-- Vacancy record of the duplicate-load scenario. -/
def vacancyRecordDev : VacancyRecord :=
  { id := some 10
    name := some "Dev"
    employer := some { id := some 1 }
    salary := some { fromB := some 1000, toB := some 2000, currency := some "RUR" } }

/-- The empty store. -/
def emptyDb : Database := { employers := [], vacancies := [] }

/-- Vacancy record whose employer reference points at an absent employer:
its insert raises a foreign-key violation on the empty store. -/
def vacancyRecordOrphan : VacancyRecord :=
  { id := some 5, name := some "Orphan", employer := some { id := some 99 } }

/-- Employer record with no external id: its insert raises a NOT NULL
violation. -/
def employerRecordNoId : EmployerRecord := { name := some "NoId" }

/-- Store holding a single vacancy whose bounds are both 0: it carries
salary data, yet its average comparable salary is exactly 0. -/
def zeroSalaryDb : Database :=
  { employers := []
    vacancies :=
      [{ id := 1
         vacancy_id := 1
         employer_id := none
         name := "Zero"
         salary_from := some 0
         salary_to := some 0
         salary_currency := none
         salary_gross := none
         area := none
         published_at := none
         created_at := none
         requirement := none
         responsibility := none
         employment := none
         experience := none
         alternate_url := none }] }

/-! ## The two-vacancy example store of the specification scenario -/

/-- Employer row A of the example store. -/
def exampleEmployerA : EmployerRow :=
  { id := 1, employer_id := 1, name := "A", description := none
    site_url := none, alternate_url := none, logo_urls := none
    area := none, industries := none }

/-- Employer row B of the example store. -/
def exampleEmployerB : EmployerRow :=
  { id := 2, employer_id := 2, name := "B", description := none
    site_url := none, alternate_url := none, logo_urls := none
    area := none, industries := none }

/-- Vacancy row Dev of the example store: employer A, salary 1000 to 2000. -/
def exampleVacancyDev : VacancyRow :=
  { id := 1, vacancy_id := 10, employer_id := some 1, name := "Dev"
    salary_from := some 1000, salary_to := some 2000
    salary_currency := some "RUR", salary_gross := none
    area := none, published_at := none, created_at := none
    requirement := none, responsibility := none
    employment := none, experience := none, alternate_url := none }

/-- Vacancy row Mgr of the example store: employer B, no salary data. -/
def exampleVacancyMgr : VacancyRow :=
  { id := 2, vacancy_id := 11, employer_id := some 2, name := "Mgr"
    salary_from := none, salary_to := none
    salary_currency := none, salary_gross := none
    area := none, published_at := none, created_at := none
    requirement := none, responsibility := none
    employment := none, experience := none, alternate_url := none }

/-- The example store of the specification scenario. -/
def exampleDb : Database :=
  { employers := [exampleEmployerA, exampleEmployerB]
    vacancies := [exampleVacancyDev, exampleVacancyMgr] }

/-! ## The substring reading of keyword search -/

/-- Case-insensitive substring containment, the predicate the claim states
for keyword search (spec wording): the lowered keyword occurs as a
contiguous substring of the lowered text. -/
def containsCaseInsensitive (text keyword : String) : Prop :=
  lowerChars keyword <:+: lowerChars text

instance (text keyword : String) : Decidable (containsCaseInsensitive text keyword) :=
  List.decidableInfix _ _

instance (o : Option String) (P : String → Prop) [DecidablePred P] :
    Decidable (∃ t, o = some t ∧ P t) :=
  match o with
  | none => isFalse fun ⟨_, h, _⟩ => Option.noConfusion h
  | some s =>
    if h : P s then isTrue ⟨s, rfl, h⟩
    else isFalse fun ⟨_, ht, hp⟩ => h ((Option.some.inj ht).symm ▸ hp)

/-- Selection predicate of keyword search as the claim words it: the
keyword occurs case-insensitively in the title, the requirement text or the
responsibility text. -/
def specKeywordPred (kw : String) (v : VacancyRow) : Prop :=
  containsCaseInsensitive v.name kw ∨
  (∃ t, v.requirement = some t ∧ containsCaseInsensitive t kw) ∨
  (∃ t, v.responsibility = some t ∧ containsCaseInsensitive t kw)

instance (kw : String) (v : VacancyRow) : Decidable (specKeywordPred kw v) := by
  unfold specKeywordPred
  infer_instance

/-! ## Theorems -/

/-- Floor division by two agrees with the rational floor of the half. -/
theorem int_fdiv_two_eq_floor (n : ℤ) : n.fdiv 2 = ⌊(n : ℚ) / 2⌋ := by
  rw [Int.fdiv_eq_ediv _ (by norm_num)]
  rw [show ((2 : ℚ)) = ((2 : ℕ) : ℚ) by norm_num, Rat.floor_intCast_div_natCast]
  norm_num

/-- C1: for every pair of nullable integer bounds, the comparison salary of
a vacancy is the floor of the arithmetic mean when both bounds are present,
the present bound when exactly one is present, and 0 when neither is. -/
theorem comparison_salary_cases (a b : ℤ) :
    get_comparison_salary (some a) (some b) = ⌊((a : ℚ) + (b : ℚ)) / 2⌋ ∧
    get_comparison_salary (some a) none = a ∧
    get_comparison_salary none (some b) = b ∧
    get_comparison_salary (none : Option ℤ) (none : Option ℤ) = 0 := by
  refine ⟨?_, rfl, rfl, rfl⟩
  show (a + b).fdiv 2 = _
  rw [int_fdiv_two_eq_floor]
  norm_num

/-- C4 counterexample: at bounds 1 and 2 the CASE expression of the query
engine produces 3/2 while the shared normalizer produces 1, so the two
derived salaries are not equal on every pair. -/
theorem caseSalary_ne_comparison_at_one_two :
    caseSalary (some 1) (some 2) ≠
      some ((get_comparison_salary (some 1) (some 2) : ℤ) : ℚ) := by
  have h1 : get_comparison_salary (some 1) (some 2) = 1 := by decide
  rw [h1]
  simp only [caseSalary, ne_eq, Option.some.injEq]
  norm_num

/-- C4 amended: on every pair with at least one bound present, the CASE
expression of the query engine yields a value whose floor is exactly the
shared comparable salary; the two agree on one-sided pairs and differ by
the dropped fractional part when both bounds are present with an odd sum. -/
theorem caseSalary_floor_refines (lo hi : Option ℤ) (h : lo.isSome ∨ hi.isSome) :
    ∃ q : ℚ, caseSalary lo hi = some q ∧ get_comparison_salary lo hi = ⌊q⌋ := by
  match lo, hi with
  | some a, some b =>
    refine ⟨_, rfl, ?_⟩
    show (a + b).fdiv 2 = _
    rw [int_fdiv_two_eq_floor]
    norm_num
  | some a, none => exact ⟨_, rfl, by simp [get_comparison_salary]⟩
  | none, some b => exact ⟨_, rfl, by simp [get_comparison_salary]⟩
  | none, none => simp at h

/-- C4 witness: instance of the amended statement at bounds 1 and 2. -/
theorem caseSalary_floor_refines_witness :
    ∃ q : ℚ, caseSalary (some 1) (some 2) = some q ∧
      get_comparison_salary (some 1) (some 2) = ⌊q⌋ :=
  caseSalary_floor_refines (some 1) (some 2) (Or.inl rfl)

/-- C9 counterexample: the utils formatter tests the bounds with plain
truthiness, so the pair (0, absent) with currency RUR is rendered as the
unspecified sentinel although the lower bound is present; the claim
requires the lower-bound form. -/
theorem format_salary_zero_lower_bound :
    format_salary (some 0) none (some "RUR") = "не указана" ∧
    format_salary (some 0) none (some "RUR") ≠ "от 0 RUR" := by
  exact ⟨rfl, by decide⟩

/-- C9 amended: the vacancy display method renders by presence of the
bounds (absent means None), defaulting a missing currency to RUR, while the
utils formatter renders by truthiness of the bounds, treating a zero bound
exactly like an absent one, and interpolates the currency as-is. -/
theorem display_salary_rules (a b : ℤ) (cur : String) (copt : Option String) :
    (get_salary_display (some a) (some b) (some cur)
       = toString a ++ " - " ++ toString b ++ " " ++ cur) ∧
    (get_salary_display (some a) none (some cur)
       = "от " ++ toString a ++ " " ++ cur) ∧
    (get_salary_display none (some b) (some cur)
       = "до " ++ toString b ++ " " ++ cur) ∧
    (get_salary_display none none copt = "Не указана") ∧
    (get_salary_display (some a) none none = "от " ++ toString a ++ " " ++ "RUR") ∧
    (a ≠ 0 → b ≠ 0 →
      format_salary (some a) (some b) copt
        = toString a ++ " - " ++ toString b ++ " " ++ interpOptStr copt) ∧
    (a ≠ 0 →
      format_salary (some a) none copt
        = "от " ++ toString a ++ " " ++ interpOptStr copt) ∧
    (a ≠ 0 →
      format_salary (some a) (some 0) copt
        = "от " ++ toString a ++ " " ++ interpOptStr copt) ∧
    (b ≠ 0 →
      format_salary none (some b) copt
        = "до " ++ toString b ++ " " ++ interpOptStr copt) ∧
    (b ≠ 0 →
      format_salary (some 0) (some b) copt
        = "до " ++ toString b ++ " " ++ interpOptStr copt) ∧
    (format_salary none none copt = "не указана") ∧
    (format_salary (some 0) (some 0) copt = "не указана") ∧
    (format_salary (some 0) none copt = "не указана") ∧
    (format_salary none (some 0) copt = "не указана") := by
  refine ⟨rfl, rfl, rfl, rfl, rfl, ?_, ?_, ?_, ?_, ?_, rfl, rfl, rfl, rfl⟩
  all_goals intro ha
  all_goals first
    | (intro hb
       simp [format_salary, truthyInt, bne_iff_ne, ha, hb])
    | simp [format_salary, truthyInt, bne_iff_ne, ha]

/-- C9 witness: the amended rules applied at the bounds 1000 and 2000 with
currency RUR, discharging every truthiness hypothesis. -/
theorem display_salary_rules_witness :
    (format_salary (some 1000) (some 2000) (some "RUR")
      = toString (1000 : ℤ) ++ " - " ++ toString (2000 : ℤ) ++ " "
          ++ interpOptStr (some "RUR")) ∧
    (format_salary (some 1000) none (some "RUR")
      = "от " ++ toString (1000 : ℤ) ++ " " ++ interpOptStr (some "RUR")) ∧
    (format_salary (some 1000) (some 0) (some "RUR")
      = "от " ++ toString (1000 : ℤ) ++ " " ++ interpOptStr (some "RUR")) ∧
    (format_salary none (some 2000) (some "RUR")
      = "до " ++ toString (2000 : ℤ) ++ " " ++ interpOptStr (some "RUR")) ∧
    (format_salary (some 0) (some 2000) (some "RUR")
      = "до " ++ toString (2000 : ℤ) ++ " " ++ interpOptStr (some "RUR")) := by
  have h := display_salary_rules 1000 2000 "RUR" (some "RUR")
  exact ⟨h.2.2.2.2.2.1 (by norm_num) (by norm_num),
    h.2.2.2.2.2.2.1 (by norm_num),
    h.2.2.2.2.2.2.2.1 (by norm_num),
    h.2.2.2.2.2.2.2.2.1 (by norm_num),
    h.2.2.2.2.2.2.2.2.2.1 (by norm_num)⟩

/-- C8: every query operation of the query engine maps an execution failure
to the type-appropriate empty value: the empty list for list-returning
operations, none for the scalar average, and the empty mapping (none) for
the statistics operation; no exception escapes. -/
theorem query_failure_degrades_to_empty (err : DBError) (keyword : String)
    (company_id : ℤ) (limit : ℕ) :
    get_companies_and_vacancies_count (.error err) = [] ∧
    get_all_vacancies (.error err) = [] ∧
    get_avg_salary (.error err) = none ∧
    get_vacancies_with_higher_salary (.error err) = [] ∧
    get_vacancies_with_keyword (.error err) keyword = [] ∧
    get_vacancies_by_company (.error err) company_id = [] ∧
    get_top_companies_by_vacancies (.error err) limit = [] ∧
    get_salary_statistics (.error err) = none :=
  ⟨rfl, rfl, rfl, rfl, rfl, rfl, rfl, rfl⟩

/-- C10: the average-salary operation answers none exactly when the SQL
aggregate is NULL or equal to 0, because the source checks the fetched
value for truthiness rather than for presence; a present answer is always
nonzero.  The store zeroSalaryDb has salary data with aggregate 0 and is
reported exactly like a store with no salary data. -/
theorem get_avg_salary_truthiness (db : Database) (q : ℚ) :
    (get_avg_salary (.ok db) = none ↔
      avgSalaryAggregate db = none ∨ avgSalaryAggregate db = some 0) ∧
    (get_avg_salary (.ok db) = some q ↔
      avgSalaryAggregate db = some q ∧ q ≠ 0) ∧
    avgSalaryAggregate zeroSalaryDb = some 0 ∧
    get_avg_salary (.ok zeroSalaryDb) = none := by
  have hz : avgSalaryAggregate zeroSalaryDb = some 0 := by
    simp [avgSalaryAggregate, zeroSalaryDb, caseSalary]
  refine ⟨?_, ?_, hz, ?_⟩
  · cases h : avgSalaryAggregate db with
    | none => simp [get_avg_salary, h]
    | some a =>
      by_cases ha : a = 0
      · subst ha; simp [get_avg_salary, h]
      · simp [get_avg_salary, h, ha]
  · cases h : avgSalaryAggregate db with
    | none => simp [get_avg_salary, h]
    | some a =>
      by_cases ha : a = 0
      · subst ha
        simp [get_avg_salary, h]
        exact fun h1 => h1.symm
      · simp [get_avg_salary, h, ha]
        rintro rfl
        exact ha
  · simp [get_avg_salary, hz]

/-- C2: evaluation of the loader at the duplicate-vacancy input.  The first
load writes the one vacancy row and reports vacancies_loaded = 1; re-running
the identical load writes nothing (the insert conflicts on vacancy_id 10 and
returns no row), yet the loader reports vacancies_loaded = 1 again, because
the vacancy loop increments its counter unconditionally (db_manager.py lines
211-213).  Combined count 2 with a single stored row contradicts the claimed
written-row counting rule. -/
theorem duplicate_vacancy_counted_twice :
    (load_data_from_json emptyDb [employerRecordA] [vacancyRecordDev]).1.vacancies_loaded
      = 1 ∧
    (load_data_from_json
        (load_data_from_json emptyDb [employerRecordA] [vacancyRecordDev]).2
        [employerRecordA] [vacancyRecordDev]).1.vacancies_loaded = 1 ∧
    (load_data_from_json
        (load_data_from_json emptyDb [employerRecordA] [vacancyRecordDev]).2
        [employerRecordA] [vacancyRecordDev]).2.vacancies.length = 1 := by
  decide

/-- C7 counterexample: a vacancy whose insert fails on a missing employer
reference writes no row, yet the loader reports vacancies_loaded = 1 for
it, so a failing record is not counted as "not loaded". -/
theorem failed_vacancy_still_counted :
    (load_data_from_json emptyDb [] [vacancyRecordOrphan]).1.vacancies_loaded = 1 ∧
    (load_data_from_json emptyDb [] [vacancyRecordOrphan]).2.vacancies = [] := by
  decide

/-- C7 amended: a failing insert is caught inside the record it belongs to
(the insert returns None and leaves the store unchanged) and the remaining
records of the batch are processed exactly as they would have been without
the failing record; the employer counter is not incremented for the failing
record, while the vacancy counter is incremented regardless of the
failure. -/
theorem insert_failure_isolated (d : Database) (err1 err2 : DBError)
    (e : EmployerRecord) (es : List EmployerRecord)
    (v : VacancyRecord) (vs : List VacancyRecord) (n : Nat)
    (he : execInsertEmployer d e = .error err1)
    (hv : execInsertVacancy d v = .error err2) :
    insert_employer d e = (none, d) ∧
    (e :: es).foldl loadEmployersStep (n, d) = es.foldl loadEmployersStep (n, d) ∧
    insert_vacancy d v = (none, d) ∧
    (v :: vs).foldl loadVacanciesStep (n, d) = vs.foldl loadVacanciesStep (n + 1, d) := by
  have h1 : insert_employer d e = (none, d) := by unfold insert_employer; rw [he]
  have h2 : insert_vacancy d v = (none, d) := by unfold insert_vacancy; rw [hv]
  refine ⟨h1, ?_, h2, ?_⟩
  · simp [List.foldl_cons, loadEmployersStep, h1]
  · simp [List.foldl_cons, loadVacanciesStep, h2]

/-- C7 witness: the isolation statement at a NOT NULL failing employer and
a foreign-key failing vacancy over the empty store. -/
theorem insert_failure_isolated_witness :
    insert_employer emptyDb employerRecordNoId = (none, emptyDb) ∧
    ([employerRecordNoId] : List EmployerRecord).foldl loadEmployersStep (0, emptyDb)
      = ([] : List EmployerRecord).foldl loadEmployersStep (0, emptyDb) ∧
    insert_vacancy emptyDb vacancyRecordOrphan = (none, emptyDb) ∧
    ([vacancyRecordOrphan] : List VacancyRecord).foldl loadVacanciesStep (0, emptyDb)
      = ([] : List VacancyRecord).foldl loadVacanciesStep (0 + 1, emptyDb) :=
  insert_failure_isolated emptyDb .notNullViolation .foreignKeyViolation
    employerRecordNoId [] vacancyRecordOrphan [] 0 rfl rfl

/-! ## Lemmas about the employer loop (towards C3) -/

/-- An insert with a missing id or name raises and is caught: no row, store
unchanged. -/
theorem insert_employer_err (db : Database) (e : EmployerRecord)
    (h : e.id = none ∨ e.name = none) : insert_employer db e = (none, db) := by
  unfold insert_employer execInsertEmployer
  rcases h with h | h
  · rw [h]
    cases e.name <;> rfl
  · rw [h]
    cases e.id <;> rfl

/-- An insert whose employer_id already exists conflicts: DO NOTHING, no
returned row, store unchanged. -/
theorem insert_employer_conflict (db : Database) (e : EmployerRecord)
    (eid : ℤ) (nm : String) (hid : e.id = some eid) (hnm : e.name = some nm)
    (hc : db.employers.any (fun r => r.employer_id == eid) = true) :
    insert_employer db e = (none, db) := by
  unfold insert_employer execInsertEmployer
  rw [hid, hnm]
  simp [hc]

/-- A fresh insert appends exactly one row and returns its serial id. -/
theorem insert_employer_new (db : Database) (e : EmployerRecord)
    (eid : ℤ) (nm : String) (hid : e.id = some eid) (hnm : e.name = some nm)
    (hc : db.employers.any (fun r => r.employer_id == eid) = false) :
    insert_employer db e =
      (some (db.employers.length + 1),
       { db with employers := db.employers ++ [mkEmployerRow db e eid nm] }) := by
  unfold insert_employer execInsertEmployer
  rw [hid, hnm]
  simp [hc]

/-- One employer-loop iteration either leaves the pair unchanged or appends
exactly one row and increments the counter. -/
theorem loadEmployersStep_cases (acc : Nat × Database) (e : EmployerRecord) :
    loadEmployersStep acc e = (acc.1, acc.2) ∨
    ∃ eid nm, e.id = some eid ∧ e.name = some nm ∧
      loadEmployersStep acc e =
        (acc.1 + 1,
         { acc.2 with employers := acc.2.employers ++ [mkEmployerRow acc.2 e eid nm] }) := by
  cases hid : e.id with
  | none =>
    left
    unfold loadEmployersStep
    rw [insert_employer_err acc.2 e (Or.inl hid)]
  | some eid =>
    cases hnm : e.name with
    | none =>
      left
      unfold loadEmployersStep
      rw [insert_employer_err acc.2 e (Or.inr hnm)]
    | some nm =>
      cases hc : acc.2.employers.any (fun r => r.employer_id == eid) with
      | true =>
        left
        unfold loadEmployersStep
        rw [insert_employer_conflict acc.2 e eid nm hid hnm hc]
      | false =>
        right
        refine ⟨eid, nm, rfl, rfl, ?_⟩
        unfold loadEmployersStep
        rw [insert_employer_new acc.2 e eid nm hid hnm hc]
        simp

/-- The employer loop only appends to the employers table. -/
theorem foldl_loadEmployersStep_extend (es : List EmployerRecord)
    (acc : Nat × Database) :
    ∃ t, ((es.foldl loadEmployersStep acc).2).employers = acc.2.employers ++ t := by
  induction es generalizing acc with
  | nil => exact ⟨[], by simp⟩
  | cons e es ih =>
    rcases loadEmployersStep_cases acc e with h | ⟨eid, nm, _, _, h⟩
    · obtain ⟨t, ht⟩ := ih (loadEmployersStep acc e)
      exact ⟨t, by rw [List.foldl_cons, ht, h]⟩
    · obtain ⟨t, ht⟩ := ih (loadEmployersStep acc e)
      refine ⟨mkEmployerRow acc.2 e eid nm :: t, ?_⟩
      rw [List.foldl_cons, ht, h]
      simp

/-- Stored employer ids survive the rest of the employer loop. -/
theorem foldl_loadEmployersStep_any (es : List EmployerRecord)
    (acc : Nat × Database) (p : EmployerRow → Bool)
    (h : acc.2.employers.any p = true) :
    ((es.foldl loadEmployersStep acc).2).employers.any p = true := by
  obtain ⟨t, ht⟩ := foldl_loadEmployersStep_extend es acc
  rw [ht, List.any_append, h, Bool.true_or]

/-- After one iteration for a record carrying an id and a name, a row with
that employer id is present (it was either already there or freshly
inserted). -/
theorem loadEmployersStep_mem (acc : Nat × Database) (e : EmployerRecord)
    (eid : ℤ) (nm : String) (hid : e.id = some eid) (hnm : e.name = some nm) :
    ((loadEmployersStep acc e).2).employers.any
      (fun r => r.employer_id == eid) = true := by
  cases hc : acc.2.employers.any (fun r => r.employer_id == eid) with
  | true =>
    rcases loadEmployersStep_cases acc e with h | ⟨eid2, nm2, _, _, h⟩
    · rw [h]; exact hc
    · rw [h]
      simp only [List.any_append]
      rw [hc, Bool.true_or]
  | false =>
    unfold loadEmployersStep
    rw [insert_employer_new acc.2 e eid nm hid hnm hc]
    simp [mkEmployerRow, List.any_append]

/-- After the whole employer loop, every processed record that carried an
id and a name has a row with that id in the table. -/
theorem foldl_loadEmployersStep_mem (es : List EmployerRecord)
    (acc : Nat × Database) (e : EmployerRecord) (he : e ∈ es)
    (eid : ℤ) (nm : String) (hid : e.id = some eid) (hnm : e.name = some nm) :
    ((es.foldl loadEmployersStep acc).2).employers.any
      (fun r => r.employer_id == eid) = true := by
  induction es generalizing acc with
  | nil => cases he
  | cons e0 es ih =>
    rw [List.foldl_cons]
    rcases List.mem_cons.mp he with rfl | he0
    · exact foldl_loadEmployersStep_any es _ _ (loadEmployersStep_mem acc e eid nm hid hnm)
    · exact ih (loadEmployersStep acc e0) he0

/-- The employer counter counts exactly the rows the loop appended. -/
theorem foldl_loadEmployersStep_count (es : List EmployerRecord)
    (acc : Nat × Database) :
    (es.foldl loadEmployersStep acc).1 + acc.2.employers.length
      = acc.1 + ((es.foldl loadEmployersStep acc).2).employers.length := by
  induction es generalizing acc with
  | nil => simp [Nat.add_comm]
  | cons e es ih =>
    rw [List.foldl_cons]
    rcases loadEmployersStep_cases acc e with h | ⟨eid, nm, _, _, h⟩
    · rw [h]
      have := ih (acc.1, acc.2)
      simpa using this
    · rw [h]
      have := ih (acc.1 + 1,
        { acc.2 with employers := acc.2.employers ++ [mkEmployerRow acc.2 e eid nm] })
      simp at this ⊢
      omega

/-- A fold over records whose inserts are all no-ops is the identity. -/
theorem foldl_loadEmployersStep_noop (es : List EmployerRecord)
    (d : Database) (n0 : Nat)
    (h : ∀ e ∈ es, insert_employer d e = (none, d)) :
    es.foldl loadEmployersStep (n0, d) = (n0, d) := by
  induction es generalizing n0 with
  | nil => rfl
  | cons e es ih =>
    rw [List.foldl_cons]
    have hstep : loadEmployersStep (n0, d) e = (n0, d) := by
      unfold loadEmployersStep
      rw [h e (List.mem_cons_self e es)]
    rw [hstep]
    exact ih n0 (fun e2 he2 => h e2 (List.mem_cons_of_mem e he2))


/-- The vacancy loop never touches the employers table. -/
theorem insert_vacancy_employers (db : Database) (v : VacancyRecord) :
    ((insert_vacancy db v).2).employers = db.employers := by
  unfold insert_vacancy execInsertVacancy
  cases v.id with
  | none => cases v.name <;> rfl
  | some vid =>
    cases v.name with
    | none => rfl
    | some nm =>
      cases hc : db.vacancies.any (fun r => r.vacancy_id == vid) with
      | true => simp [hc]
      | false =>
        cases hemp : v.employer.bind EmployerRef.id with
        | none => simp [hc, hemp]
        | some eid =>
          cases hfk : db.employers.any (fun r => r.employer_id == eid) with
          | true => simp [hc, hemp, hfk]
          | false => simp [hc, hemp, hfk]

/-- The whole vacancy loop never touches the employers table. -/
theorem foldl_loadVacanciesStep_employers (vs : List VacancyRecord)
    (acc : Nat × Database) :
    ((vs.foldl loadVacanciesStep acc).2).employers = acc.2.employers := by
  induction vs generalizing acc with
  | nil => rfl
  | cons v vs ih =>
    rw [List.foldl_cons]
    rw [ih]
    show ((insert_vacancy acc.2 v).2).employers = _
    exact insert_vacancy_employers acc.2 v

/-- C3: the employer counter counts exactly the employer rows actually
written (a conflict or failure yields no row and no increment), and
re-running an identical load reports employers_loaded = 0 with the
employers table and the reported total unchanged. -/
theorem load_rerun_employers (db : Database) (es : List EmployerRecord)
    (vs : List VacancyRecord) :
    (load_data_from_json db es vs).1.employers_loaded + db.employers.length
      = ((load_data_from_json db es vs).2).employers.length ∧
    (load_data_from_json (load_data_from_json db es vs).2 es vs).1.employers_loaded
      = 0 ∧
    (load_data_from_json (load_data_from_json db es vs).2 es vs).1.employers_total
      = (load_data_from_json db es vs).1.employers_total ∧
    ((load_data_from_json (load_data_from_json db es vs).2 es vs).2).employers
      = ((load_data_from_json db es vs).2).employers := by
  have hfin1emp : ((load_data_from_json db es vs).2).employers
      = ((es.foldl loadEmployersStep (0, db)).2).employers := by
    show ((vs.foldl loadVacanciesStep
        (0, (es.foldl loadEmployersStep (0, db)).2)).2).employers = _
    rw [foldl_loadVacanciesStep_employers]
  have hnoop : ∀ e ∈ es,
      insert_employer (load_data_from_json db es vs).2 e
        = (none, (load_data_from_json db es vs).2) := by
    intro e he
    cases hid : e.id with
    | none => exact insert_employer_err _ e (Or.inl hid)
    | some eid =>
      cases hnm : e.name with
      | none => exact insert_employer_err _ e (Or.inr hnm)
      | some nm =>
        apply insert_employer_conflict _ e eid nm hid hnm
        rw [hfin1emp]
        exact foldl_loadEmployersStep_mem es (0, db) e he eid nm hid hnm
  have hsecond : es.foldl loadEmployersStep (0, (load_data_from_json db es vs).2)
      = (0, (load_data_from_json db es vs).2) :=
    foldl_loadEmployersStep_noop es _ 0 hnoop
  refine ⟨?_, ?_, rfl, ?_⟩
  · show (es.foldl loadEmployersStep (0, db)).1 + db.employers.length
      = ((load_data_from_json db es vs).2).employers.length
    rw [hfin1emp]
    have := foldl_loadEmployersStep_count es (0, db)
    simpa using this
  · show (es.foldl loadEmployersStep
      (0, (load_data_from_json db es vs).2)).1 = 0
    rw [hsecond]
  · show ((vs.foldl loadVacanciesStep
      (0, (es.foldl loadEmployersStep
        (0, (load_data_from_json db es vs).2)).2)).2).employers
      = ((load_data_from_json db es vs).2).employers
    rw [hsecond, foldl_loadVacanciesStep_employers]

/-- C5: when the average salary is None the above-average operation
answers the empty list; when it is present, the result is a permutation of
the joined rows selected by the three OR-ed bound conditions (each bound
tested individually, plus the unfloored mean of both), it is sorted in
descending order of the projected calculated salary, the selection
predicate means exactly the claimed disjunction, and every returned row
carries the CASE expression of its own bounds as calculated salary. -/
theorem higher_salary_spec (db : Database) :
    (get_avg_salary (.ok db) = none →
      get_vacancies_with_higher_salary (.ok db) = []) ∧
    ∀ avg : ℚ, get_avg_salary (.ok db) = some avg →
      ((get_vacancies_with_higher_salary (.ok db)).Perm
        (((joinRows db).filter fun p => higherSalaryPred avg p.2).map
          projectHigherSalaryRow)) ∧
      List.Sorted byCalculatedSalaryDesc (get_vacancies_with_higher_salary (.ok db)) ∧
      (∀ v : VacancyRow, higherSalaryPred avg v = true ↔
        ((∃ a : ℤ, v.salary_from = some a ∧ avg < (a : ℚ)) ∨
         (∃ b : ℤ, v.salary_to = some b ∧ avg < (b : ℚ)) ∨
         (∃ a b : ℤ, v.salary_from = some a ∧ v.salary_to = some b ∧
           avg < ((a : ℚ) + (b : ℚ)) / 2))) ∧
      (∀ r ∈ get_vacancies_with_higher_salary (.ok db),
        r.calculated_salary = caseSalary r.salary_from r.salary_to) := by
  constructor
  · intro h
    simp [get_vacancies_with_higher_salary, h]
  · intro avg havg
    have hres : get_vacancies_with_higher_salary (.ok db)
        = List.insertionSort byCalculatedSalaryDesc
            (((joinRows db).filter fun p => higherSalaryPred avg p.2).map
              projectHigherSalaryRow) := by
      simp [get_vacancies_with_higher_salary, havg]
    refine ⟨?_, ?_, ?_, ?_⟩
    · rw [hres]
      exact List.perm_insertionSort _ _
    · rw [hres]
      haveI h1 : IsTotal HigherSalaryRow byCalculatedSalaryDesc :=
        ⟨fun a b => le_total _ _⟩
      haveI h2 : IsTrans HigherSalaryRow byCalculatedSalaryDesc :=
        ⟨fun _ _ _ hab hbc => le_trans hbc hab⟩
      exact List.sorted_insertionSort _ _
    · intro v
      cases hf : v.salary_from <;> cases ht : v.salary_to <;>
        simp [higherSalaryPred, hf, ht, or_assoc]
    · intro r hr
      rw [hres] at hr
      have hmem : r ∈ ((joinRows db).filter fun p => higherSalaryPred avg p.2).map
          projectHigherSalaryRow :=
        (List.Perm.mem_iff (List.perm_insertionSort _ _)).mp hr
      obtain ⟨p, _, rfl⟩ := List.mem_map.mp hmem
      rfl

/-- C5 witness: over the empty store the average is None and the operation
answers the empty list; over the example store the average is 1500 and the
operation returns the selected, projected rows. -/
theorem higher_salary_spec_witness :
    get_vacancies_with_higher_salary (.ok emptyDb) = [] ∧
    (get_vacancies_with_higher_salary (.ok exampleDb)).Perm
      (((joinRows exampleDb).filter fun p => higherSalaryPred 1500 p.2).map
        projectHigherSalaryRow) :=
  ⟨(higher_salary_spec emptyDb).1 rfl,
   ((higher_salary_spec exampleDb).2 1500
    (by
      have hA : avgSalaryAggregate exampleDb = some 1500 := by
        simp [avgSalaryAggregate, exampleDb, exampleVacancyDev,
          exampleVacancyMgr, caseSalary]
        norm_num
      simp [get_avg_salary, hA])).1⟩

/-! ## Keyword search versus the substring reading (towards C6) -/

/-- Unfolding of the percent wildcard: some suffix of the string matches
the rest of the pattern. -/
theorem likeMatch_percent_iff (p s : List Char) :
    likeMatch ('%' :: p) s = true ↔ ∃ t, t <:+ s ∧ likeMatch p t = true := by
  have hne : ('%' : Char) ≠ '\\' := by decide
  have h : likeMatch ('%' :: p) s = s.tails.any fun t => likeMatch p t := by
    rw [likeMatch.eq_def]
    simp [hne]
  rw [h, List.any_eq_true]
  constructor
  · rintro ⟨t, ht, hm⟩
    exact ⟨t, (List.mem_tails t s).mp ht, hm⟩
  · rintro ⟨t, ht, hm⟩
    exact ⟨t, (List.mem_tails t s).mpr ht, hm⟩

/-- A trailing percent wildcard matches every string. -/
theorem likeMatch_all (s : List Char) : likeMatch ['%'] s = true := by
  have hne : ('%' : Char) ≠ '\\' := by decide
  have h : likeMatch ['%'] s = s.tails.any fun t => likeMatch [] t := by
    rw [likeMatch.eq_def]
    simp [hne]
  rw [h, List.any_eq_true]
  exact ⟨[], (List.mem_tails [] s).mpr List.nil_suffix, rfl⟩

/-- A pattern free of wildcards and of the escape character, followed by a
single percent, matches exactly the strings it starts. -/
theorem likeMatch_literal (kw : List Char) (h1 : '%' ∉ kw) (h2 : '_' ∉ kw)
    (h3 : '\\' ∉ kw) :
    ∀ s, likeMatch (kw ++ ['%']) s = true ↔ kw <+: s := by
  induction kw with
  | nil =>
    intro s
    simp only [List.nil_append]
    constructor
    · intro _
      exact List.nil_prefix
    · intro _
      exact likeMatch_all s
  | cons c kw ih =>
    have hc1 : c ≠ '%' := fun h => h1 (h ▸ List.mem_cons_self c kw)
    have hc2 : c ≠ '_' := fun h => h2 (h ▸ List.mem_cons_self c kw)
    have hc3 : c ≠ '\\' := fun h => h3 (h ▸ List.mem_cons_self c kw)
    have ih2 := ih (fun h => h1 (List.mem_cons_of_mem c h))
      (fun h => h2 (List.mem_cons_of_mem c h))
      (fun h => h3 (List.mem_cons_of_mem c h))
    intro s
    cases s with
    | nil =>
      have hl : likeMatch ((c :: kw) ++ ['%']) [] = false := by
        rw [likeMatch.eq_def]
        simp [hc1, hc3]
      rw [hl]
      simp
    | cons d s =>
      have hl : likeMatch ((c :: kw) ++ ['%']) (d :: s)
          = ((decide (c = '_') || decide (c = d)) && likeMatch (kw ++ ['%']) s) := by
        rw [likeMatch.eq_def]
        simp [hc1, hc3]
      rw [hl, List.cons_prefix_cons, ← ih2 s]
      simp [hc2]

/-- The ILIKE containment test of the keyword query coincides with
case-insensitive substring containment whenever the lowered keyword has no
LIKE wildcard and no escape character in it; a NULL field never matches. -/
theorem ilikeContains_iff (kw : String)
    (h1 : '%' ∉ lowerChars kw) (h2 : '_' ∉ lowerChars kw)
    (h3 : '\\' ∉ lowerChars kw)
    (field : Option String) :
    ilikeContains field kw = true ↔
      ∃ s, field = some s ∧ containsCaseInsensitive s kw := by
  cases field with
  | none =>
    simp only [ilikeContains]
    constructor
    · intro h
      cases h
    · rintro ⟨s, hs, _⟩
      cases hs
  | some s =>
    simp only [ilikeContains]
    rw [likeMatch_percent_iff]
    constructor
    · rintro ⟨t, ht, hm⟩
      have hpre : lowerChars kw <+: t := (likeMatch_literal _ h1 h2 h3 t).mp hm
      exact ⟨s, rfl, List.infix_iff_prefix_suffix.mpr ⟨t, hpre, ht⟩⟩
    · rintro ⟨s2, heq, hc⟩
      cases heq
      obtain ⟨t, hpre, hsuf⟩ := List.infix_iff_prefix_suffix.mp hc
      exact ⟨t, hsuf, (likeMatch_literal _ h1 h2 h3 t).mpr hpre⟩

/-- C6 counterexample: with the keyword consisting of the single underscore
the query returns both rows of the example store (the ILIKE pattern treats
the underscore as a wildcard for one arbitrary character), although neither
vacancy contains an underscore in its title, requirement or responsibility,
so the operation does not return exactly the substring matches. -/
theorem keyword_underscore_counterexample :
    ((get_vacancies_with_keyword (.ok exampleDb) "_").map KeywordRow.vacancy_name
      = ["Dev", "Mgr"]) ∧
    ¬ specKeywordPred "_" exampleVacancyDev ∧
    ¬ specKeywordPred "_" exampleVacancyMgr := by
  refine ⟨by decide, by decide, by decide⟩

/-- C6 amended: for every keyword whose lowered form carries no LIKE
wildcard and no escape character (no percent sign, no underscore, no
backslash), the keyword query returns exactly (as a permutation) the joined
vacancies whose title, requirement text or responsibility text contains the
keyword case-insensitively, sorted by company name then vacancy name; and
on the two-vacancy example store the keyword Dev returns exactly the one
row named Dev. -/
theorem keyword_search_spec (db : Database) (kw : String)
    (h1 : '%' ∉ lowerChars kw) (h2 : '_' ∉ lowerChars kw)
    (h3 : '\\' ∉ lowerChars kw) :
    ((get_vacancies_with_keyword (.ok db) kw).Perm
      (((joinRows db).filter fun p => decide (specKeywordPred kw p.2)).map
        projectKeywordRow)) ∧
    List.Sorted (fun r1 r2 : KeywordRow =>
      byCompanyThenVacancy r1.company_name r1.vacancy_name
        r2.company_name r2.vacancy_name)
      (get_vacancies_with_keyword (.ok db) kw) ∧
    (get_vacancies_with_keyword (.ok exampleDb) "Dev").map KeywordRow.vacancy_name
      = ["Dev"] := by
  have hfilter : ∀ p : EmployerRow × VacancyRow,
      (ilikeContains (some p.2.name) kw || ilikeContains p.2.requirement kw ||
        ilikeContains p.2.responsibility kw)
        = decide (specKeywordPred kw p.2) := by
    intro p
    rw [Bool.eq_iff_iff]
    simp only [Bool.or_eq_true, decide_eq_true_eq]
    rw [ilikeContains_iff kw h1 h2 h3, ilikeContains_iff kw h1 h2 h3,
      ilikeContains_iff kw h1 h2 h3]
    unfold specKeywordPred
    constructor
    · rintro ((⟨s, hs, hc⟩ | h) | h)
      · cases hs
        exact Or.inl hc
      · exact Or.inr (Or.inl h)
      · exact Or.inr (Or.inr h)
    · rintro (hc | h | h)
      · exact Or.inl (Or.inl ⟨p.2.name, rfl, hc⟩)
      · exact Or.inl (Or.inr h)
      · exact Or.inr h
  have hfeq : (joinRows db).filter (fun p =>
        ilikeContains (some p.2.name) kw || ilikeContains p.2.requirement kw ||
        ilikeContains p.2.responsibility kw)
      = (joinRows db).filter fun p => decide (specKeywordPred kw p.2) :=
    List.filter_congr (fun a _ => hfilter a)
  have hres : get_vacancies_with_keyword (.ok db) kw
      = List.insertionSort
          (fun r1 r2 : KeywordRow =>
            byCompanyThenVacancy r1.company_name r1.vacancy_name
              r2.company_name r2.vacancy_name)
          (((joinRows db).filter fun p =>
            ilikeContains (some p.2.name) kw || ilikeContains p.2.requirement kw ||
            ilikeContains p.2.responsibility kw).map projectKeywordRow) := rfl
  haveI hTr : IsTrans KeywordRow (fun r1 r2 : KeywordRow =>
      byCompanyThenVacancy r1.company_name r1.vacancy_name
        r2.company_name r2.vacancy_name) := by
    constructor
    intro a b c hab hbc
    rcases hab with h | ⟨e1, l1⟩ <;> rcases hbc with h2 | ⟨e2, l2⟩
    · exact Or.inl (h.trans h2)
    · exact Or.inl (e2 ▸ h)
    · refine Or.inl ?_
      show a.company_name.data < c.company_name.data
      rw [show a.company_name.data = b.company_name.data from e1]
      exact h2
    · exact Or.inr ⟨e1.trans e2, l1.trans l2⟩
  haveI hTo : IsTotal KeywordRow (fun r1 r2 : KeywordRow =>
      byCompanyThenVacancy r1.company_name r1.vacancy_name
        r2.company_name r2.vacancy_name) := by
    constructor
    intro a b
    rcases lt_trichotomy a.company_name.data b.company_name.data with h | h | h
    · exact Or.inl (Or.inl h)
    · rcases le_total a.vacancy_name.data b.vacancy_name.data with hn | hn
      · exact Or.inl (Or.inr ⟨h, hn⟩)
      · exact Or.inr (Or.inr ⟨h.symm, hn⟩)
    · exact Or.inr (Or.inl h)
  refine ⟨?_, ?_, by decide⟩
  · rw [hres, hfeq]
    exact List.perm_insertionSort _ _
  · rw [hres]
    exact List.sorted_insertionSort _ _

/-- C6 witness: the amended statement applied to the example store with the
wildcard-free keyword Dev. -/
theorem keyword_search_spec_witness :
    (get_vacancies_with_keyword (.ok exampleDb) "Dev").map KeywordRow.vacancy_name
      = ["Dev"] :=
  (keyword_search_spec exampleDb "Dev" (by decide) (by decide) (by decide)).2.2
